import Mathlib

/-!
Shallow embedding of the dap lifecycle and registry subsystem of the
`dapla` host platform (crates `dapla_common` and `dapla_server`).

Pure data and derivations are translated from `dapla_common/src/dap.rs`
and `dapla_server/src/daps.rs`.  Filesystem effects (settings load/save,
module files) are modelled by an explicit `World` state threaded through
the operations.  Components whose source files are not part of the
excerpt (`DapSettings` persistence, `DapsManager`, `DapsService`) are
modelled from the specification and marked as such in their doc comments.
-/

namespace Dapla

/-- Modelled from the spec: `Permission` is "an opaque, comparable,
hashable token drawn from a fixed enumeration" (the defining source file
`dapla_common/src/dap/access.rs` is not part of the excerpt). -/
inductive Permission
  | fileRead
  | fileWrite
  | http
  | websocket
  | sleep
  deriving DecidableEq

/-- The `application` table of a settings document:
`{ enabled, title }` (spec section 3; field paths confirmed by
`dapla_common/src/dap.rs`, which reads `settings.application.enabled`
and `settings.application.title`). -/
structure ApplicationSettings where
  enabled : Bool
  title : String
  deriving DecidableEq

/-- The `permissions` table of a settings document:
`{ required, allowed }` (spec section 3; field paths confirmed by
`dapla_common/src/dap.rs`, which reads `settings.permissions.required`
and `settings.permissions.allowed`). -/
structure PermissionsSettings where
  required : List Permission
  allowed : List Permission
  deriving DecidableEq

/-- `DapSettings`: the persisted settings document of one dap. -/
structure DapSettings where
  application : ApplicationSettings
  permissions : PermissionsSettings
  deriving DecidableEq

/-- Modelled from the spec: the `Default` value of `DapSettings`
("constructed with defaults (enabled = false ..., empty permission
sets)", spec section 3). -/
def DapSettings.default : DapSettings :=
  { application := { enabled := false, title := "" }
    permissions := { required := [], allowed := [] } }

/-- `Dap<P>` from `dapla_common/src/dap.rs` with `P` instantiated at the
server's `PathBuf`, modelled as `String`: identity, filesystem root and
settings.  The server-side wrapper `Dap(CommonDap)` of
`dapla_server/src/daps.rs` is transparent, so both are one structure. -/
structure Dap where
  name : String
  root_dir : String
  settings : DapSettings
  deriving DecidableEq

namespace Dap

/-- `Dap::static_dir_name` (dapla_common/src/dap.rs). -/
def static_dir_name : String := "static"

/-- `Dap::index_file_name` (dapla_common/src/dap.rs). -/
def index_file_name : String := "index.html"

/-- `Dap::main_name` (dapla_common/src/dap.rs). -/
def main_name : String := "dapla"

/-- `Dap::settings_file_name` (dapla_server/src/daps.rs). -/
def settings_file_name : String := "settings.toml"

/-- `Dap::is_main`: `self.name() == Self::main_name()`. -/
def is_main (d : Dap) : Bool := d.name == main_name

/-- `Dap::enabled`: `self.settings.application.enabled`. -/
def enabled (d : Dap) : Bool := d.settings.application.enabled

/-- `Dap::set_enabled`: `self.settings.application.enabled = enabled`. -/
def set_enabled (d : Dap) (e : Bool) : Dap :=
  { d with settings := { d.settings with
      application := { d.settings.application with enabled := e } } }

/-- `Dap::title`. -/
def title (d : Dap) : String := d.settings.application.title

/-- `Dap::set_settings`: wholesale replacement of the settings. -/
def set_settings (d : Dap) (s : DapSettings) : Dap := { d with settings := s }

/-- `Dap::root_uri`: `format!("/{}", self.name())`. -/
def root_uri (d : Dap) : String := "/" ++ d.name

/-- `Dap::static_uri`: `format!("{}/{}", self.root_uri(), Self::static_dir_name())`. -/
def static_uri (d : Dap) : String := d.root_uri ++ "/" ++ static_dir_name

/-- `Dap::is_allowed_permission`: membership in `settings.permissions.allowed`. -/
def is_allowed_permission (d : Dap) (p : Permission) : Bool :=
  d.settings.permissions.allowed.contains p

/-- `PathBuf::join` on the string model of paths. -/
def pathJoin (a b : String) : String := a ++ "/" ++ b

/-- `Dap::static_dir`: `self.root_dir().join(Self::static_dir_name())`. -/
def static_dir (d : Dap) : String := pathJoin d.root_dir static_dir_name

/-- `Dap::index_file`: `self.static_dir().join(Self::index_file_name())`. -/
def index_file (d : Dap) : String := pathJoin d.static_dir index_file_name

/-- `Dap::server_module_file`:
`self.root_dir().join(&format!("{}_server.wasm", self.name()))`. -/
def server_module_file (d : Dap) : String :=
  pathJoin d.root_dir (d.name ++ "_server.wasm")

/-- Path of the dap's settings file:
`self.root_dir().join(Self::settings_file_name())`. -/
def settingsPath (d : Dap) : String := pathJoin d.root_dir settings_file_name

end Dap

/-- Content of one file in the modelled filesystem: a parseable settings
document, an unparseable (corrupt) file, or a compiled module whose
bytes either do or do not yield a working instance. -/
inductive FileData
  | settings (s : DapSettings)
  | corrupt
  | wasm (valid : Bool)
  deriving DecidableEq

/-- The filesystem state threaded through the effectful operations:
file contents per path, plus which paths fail on write (modelling
I/O errors during `save`). -/
structure World where
  fs : String → Option FileData
  writeFails : String → Bool

/-- Overwrite one file. -/
def World.setFile (w : World) (p : String) (d : FileData) : World :=
  { w with fs := fun q => if q = p then some d else w.fs q }

/-- Error taxonomy of settings persistence (spec section 4.1:
`load -> DapSettings | NotFound | ParseError`, `save -> () | IoError`). -/
inductive DapSettingsError
  | notFound
  | parseError
  | ioError
  deriving DecidableEq

/-- Modelled from the spec: `DapSettings::load(path)` (the defining
source file `dapla_server/src/daps/settings.rs` is not part of the
excerpt): absent file is `NotFound`, malformed file is `ParseError`,
otherwise the parsed document. -/
def DapSettings.load (w : World) (path : String) : Except DapSettingsError DapSettings :=
  match w.fs path with
  | none => .error .notFound
  | some (.settings s) => .ok s
  | some .corrupt => .error .parseError
  | some (.wasm _) => .error .parseError

/-- Modelled from the spec: `DapSettings::save(path)`: writes the
serialized document, failing with `IoError` when the path is
unwritable. -/
def DapSettings.save (s : DapSettings) (w : World) (path : String) :
    Except DapSettingsError World :=
  if w.writeFails path then .error .ioError
  else .ok (w.setFile path (.settings s))

namespace Dap

/-- `Dap::reload_settings` (dapla_server/src/daps.rs):
`self.set_settings(DapSettings::load(self.root_dir().join(settings_file_name))?)`. -/
def reload_settings (d : Dap) (w : World) : Except DapSettingsError Dap :=
  (DapSettings.load w d.settingsPath).map d.set_settings

/-- `Dap::save_settings` (dapla_server/src/daps.rs):
`self.settings().save(self.root_dir().join(settings_file_name))`. -/
def save_settings (d : Dap) (w : World) : Except DapSettingsError World :=
  d.settings.save w d.settingsPath

/-- `Dap::new` (dapla_server/src/daps.rs): construct with default
settings; for a non-main dap reload the settings file, logging (and
otherwise ignoring) any error.  Total: never fails. -/
def new (name root_dir : String) (w : World) : Dap :=
  let dap : Dap := { name := name, root_dir := root_dir, settings := DapSettings.default }
  if dap.is_main then dap
  else
    match dap.reload_settings w with
    | .ok d => d
    | .error _ => dap

end Dap

/-- `DapUpdateQuery` (dapla_server/src/daps.rs): `{ enabled: Option<bool> }`. -/
structure DapUpdateQuery where
  enabled : Option Bool

/-- `Dap::update` (dapla_server/src/daps.rs, lines 153-163).  The Rust
method mutates `self` in place and returns `Result<bool>`; here the
(possibly mutated) dap and world are returned alongside the result.
Note that on a save failure the already-flipped in-memory flag is NOT
rolled back: the returned dap keeps the new value while the world keeps
the old file. -/
def Dap.update (d : Dap) (w : World) (q : DapUpdateQuery) :
    Dap × World × Except DapSettingsError Bool :=
  match q.enabled with
  | some e =>
    if d.enabled ≠ e then
      let d' := d.set_enabled e
      match d'.save_settings w with
      | .ok w' => (d', w', .ok true)
      | .error err => (d', w, .error err)
    else (d, w, .ok false)
  | none => (d, w, .ok false)

/-- Server-side error taxonomy (spec section 7): unknown dap name,
settings failure, module failure, malformed request. -/
inductive ServerError
  | notFound
  | settingsError (e : DapSettingsError)
  | moduleError
  | requestError
  deriving DecidableEq

/-- Modelled from the spec: `DapsManager` (the defining source file
`dapla_server/src/daps/manager.rs` is not part of the excerpt): the
registry mapping name to `Dap`, the held module instances, and a
counter from which fresh instance identities are drawn (spec section 2:
"Module instances, once created, are owned solely by the Dap that
created them"; a fresh identity per instantiation distinguishes a fresh
instance from a reused one). -/
structure DapsManager where
  daps : List (String × Dap)
  instances : List (String × Nat)
  nextInstance : Nat

namespace DapsManager

/-- Registry lookup, `dap(name)` / `dap_mut(name)` without the error
wrapping: `none` models `NotFoundError`. -/
def dap? (m : DapsManager) (n : String) : Option Dap :=
  (m.daps.find? (fun p => p.1 == n)).map Prod.snd

/-- Write back a (mutated) dap under its name, modelling mutation
through the `&mut Dap` handed out by `dap_mut`. -/
def setDap (m : DapsManager) (n : String) (d : Dap) : DapsManager :=
  { m with daps := m.daps.map (fun p => if p.1 == n then (n, d) else p) }

/-- Modelled from the spec: `load(name)` (spec section 4.3): look the
dap up, read its module bytes and instantiate them, storing the
instance; `ModuleError` if the bytes are unreadable or instantiation
fails, in which case no instance is stored. -/
def load (m : DapsManager) (w : World) (n : String) : Except ServerError DapsManager :=
  match m.dap? n with
  | none => .error .notFound
  | some dap =>
    match w.fs dap.server_module_file with
    | some (.wasm true) =>
      .ok { m with
            instances := (n, m.nextInstance) :: m.instances.filter (fun p => !(p.1 == n)),
            nextInstance := m.nextInstance + 1 }
    | _ => .error .moduleError

/-- Modelled from the spec: `unload(name)` (spec section 4.3): drop any
held instance unconditionally (idempotent). -/
def unload (m : DapsManager) (n : String) : DapsManager :=
  { m with instances := m.instances.filter (fun p => !(p.1 == n)) }

/-- Modelled from the spec: `load_daps()` (spec section 4.3) over an
already-scanned list of subdirectory names: construct one `Dap` per
subdirectory via `Dap::new` and insert it into the registry, then load
the module of every enabled non-main dap, skipping (only logging)
individual load failures. -/
def load_daps (root : String) (subdirs : List String) (w : World) : DapsManager :=
  let daps := subdirs.map (fun n => (n, Dap.new n (Dap.pathJoin root n) w))
  let init : DapsManager := { daps := daps, instances := [], nextInstance := 0 }
  daps.foldl
    (fun m p =>
      if p.2.enabled && !p.2.is_main then
        match m.load w p.1 with
        | .ok m' => m'
        | .error _ => m
      else m)
    init

end DapsManager

/-- `get_daps` (dapla_server/src/main.rs, lines 15-29): collect every
non-main dap of the registry and sort by name. -/
def get_daps (m : DapsManager) : List Dap :=
  ((m.daps.map Prod.snd).filter (fun d => !d.is_main)).mergeSort
    (fun a b => decide (a.name ≤ b.name))

/-- One route registered with the external router, as produced by
`Dap::http_configure`. -/
inductive Route
  | indexRoute (uri : String)
  | staticFiles (uri dir : String)
  | catchAllScope (uri : String)
  deriving DecidableEq

/-- `Dap::http_configure` (dapla_server/src/daps.rs, lines 117-142) as
the list of routes it registers: the index route at the root URI, the
static-files service, and — only when the dap is not the main dap — a
catch-all scope under the root URI. -/
def Dap.http_configure (d : Dap) : List Route :=
  [Route.indexRoute d.root_uri, Route.staticFiles d.static_uri d.static_dir] ++
    (if d.is_main then [] else [Route.catchAllScope d.root_uri])

/-- `DapUpdateRequest` as used by `update_dap` (dapla_server/src/main.rs):
the parsed administrative request body, carrying the dap name and the
update query fields. -/
structure DapUpdateRequest where
  dap_name : String
  enabled : Option Bool

/-- `update_dap` (dapla_server/src/main.rs, lines 31-51), after request
parsing: look the dap up (`NotFound` if absent), run `Dap::update`
(whose in-place mutation is visible in the registry even when it
errors), and exactly when the enabled state changed run the lifecycle
transition: `load` on a transition to enabled, `unload` on a transition
to disabled. -/
def update_dap (m : DapsManager) (w : World) (req : DapUpdateRequest) :
    DapsManager × World × Except ServerError Bool :=
  match m.dap? req.dap_name with
  | none => (m, w, .error .notFound)
  | some dap =>
    let r := dap.update w { enabled := req.enabled }
    let m' := m.setDap req.dap_name r.1
    match r.2.2 with
    | .error e => (m', r.2.1, .error (.settingsError e))
    | .ok updated =>
      if updated then
        if r.1.enabled then
          match m'.load r.2.1 req.dap_name with
          | .ok m'' => (m'', r.2.1, .ok updated)
          | .error e => (m', r.2.1, .error e)
        else (m'.unload req.dap_name, r.2.1, .ok updated)
      else (m', r.2.1, .ok updated)

/-! Concrete scenario data used by the closed theorems below. -/

/-- A non-main dap with default (disabled) settings. -/
def d0 : Dap := { name := "foo", root_dir := "rt", settings := DapSettings.default }

/-- A non-main dap whose settings report `enabled = true`. -/
def dEn : Dap :=
  { name := "foo", root_dir := "rt",
    settings := { application := { enabled := true, title := "" }
                  permissions := { required := [], allowed := [] } } }

/-- A world in which every write fails. -/
def wfail : World := { fs := fun _ => none, writeFails := fun _ => true }

/-- A world in which every write succeeds (and no file exists yet). -/
def wok : World := { fs := fun _ => none, writeFails := fun _ => false }

/-- A settings document violating the `required ⊆ allowed` expectation:
`http` is required but not allowed. -/
def viol : DapSettings :=
  { application := { enabled := false, title := "V" }
    permissions := { required := [Permission.http], allowed := [] } }

/-- A world whose only file is a settings document with `viol` at
`rv/settings.toml`. -/
def wviol : World :=
  { fs := fun p => if p = "rv/settings.toml" then some (.settings viol) else none,
    writeFails := fun _ => false }

/-- Settings of the valid dap in the discovery scenario. -/
def goodSettings : DapSettings :=
  { application := { enabled := true, title := "Good" }
    permissions := { required := [], allowed := [] } }

/-- Discovery scenario world: subdirectory `good` has a valid settings
file, subdirectory `bad` has a corrupt one. -/
def wScan : World :=
  { fs := fun p =>
      if p = "daps/good/settings.toml" then some (.settings goodSettings)
      else if p = "daps/bad/settings.toml" then some FileData.corrupt
      else none,
    writeFails := fun _ => false }

/-- The registry produced by discovering `good` and `bad` in `wScan`. -/
def scanned : DapsManager := DapsManager.load_daps "daps" ["good", "bad"] wScan

/-- Lifecycle scenario world: the module file of `dEn` is present and
valid, all writes succeed. -/
def wLife : World :=
  { fs := fun p => if p = "rt/foo_server.wasm" then some (.wasm true) else none,
    writeFails := fun _ => false }

/-- Lifecycle scenario manager: `dEn` registered and loaded with
instance identity `0`. -/
def mLife : DapsManager :=
  { daps := [("foo", dEn)], instances := [("foo", 0)], nextInstance := 1 }

/-- An empty registry. -/
def m0 : DapsManager := { daps := [], instances := [], nextInstance := 0 }

/-! Concurrency scenario: two administrative clients, A disabling dap
`alpha` and B disabling dap `beta`, run against the single shared
registry. -/

/-- The enabled dap `alpha` of the concurrency scenario. -/
def dAlpha : Dap :=
  { name := "alpha", root_dir := "ra",
    settings := { application := { enabled := true, title := "" }
                  permissions := { required := [], allowed := [] } } }

/-- The enabled dap `beta` of the concurrency scenario. -/
def dBeta : Dap :=
  { name := "beta", root_dir := "rb",
    settings := { application := { enabled := true, title := "" }
                  permissions := { required := [], allowed := [] } } }

/-- World of the concurrency scenario: both settings files persisted
with `enabled = true`, every write succeeds. -/
def wConc : World :=
  { fs := fun p =>
      if p = "ra/settings.toml" then some (.settings dAlpha.settings)
      else if p = "rb/settings.toml" then some (.settings dBeta.settings)
      else none,
    writeFails := fun _ => false }

/-- Registry of the concurrency scenario. -/
def mConc : DapsManager :=
  { daps := [("alpha", dAlpha), ("beta", dBeta)], instances := [], nextInstance := 0 }

/-- Progress of one administrative client through `handle_http`:
not yet started; holding the exclusive lock; holding the lock with the
in-memory mutation of `Dap::update` applied; done (settings persisted,
lifecycle transition performed, lock released). -/
inductive Phase
  | idle
  | hasLock
  | mutated
  | finished
  deriving DecidableEq

/-- Global state of the concurrent system: the shared registry and
filesystem, which client (if any) holds the exclusive lock
(`some false` is client A, `some true` is client B), and each client's
phase. -/
structure SysState where
  mgr : DapsManager
  world : World
  lockOwner : Option Bool
  phA : Phase
  phB : Phase

/-- Modelled from the spec: small-step semantics of the two clients
running through `DapsService::handle_http` (spec sections 4.4 and 5;
the defining source file `dapla_server/src/daps/service.rs` is not part
of the excerpt).  Each client acquires the single exclusive lock, then
— still holding it — applies the in-memory flag flip of `Dap::update`,
then persists the settings and performs the `unload` lifecycle
transition of `update_dap`, releasing the lock; on a persistence
failure the lock is released with no lifecycle transition.  A client
can acquire the lock only when no one holds it, so the steps of the two
critical sections cannot interleave. -/
inductive CStep : SysState → SysState → Prop
  | acquireA (s : SysState) : s.phA = Phase.idle → s.lockOwner = none →
      CStep s { s with lockOwner := some false, phA := Phase.hasLock }
  | mutateA (s : SysState) (d : Dap) : s.phA = Phase.hasLock →
      s.mgr.dap? "alpha" = some d →
      CStep s { s with
                mgr := s.mgr.setDap "alpha" (d.set_enabled false)
                phA := Phase.mutated }
  | persistA (s : SysState) (d : Dap) (w' : World) : s.phA = Phase.mutated →
      s.mgr.dap? "alpha" = some d →
      d.save_settings s.world = Except.ok w' →
      CStep s { s with
                world := w'
                mgr := s.mgr.unload "alpha"
                lockOwner := none
                phA := Phase.finished }
  | persistFailA (s : SysState) (d : Dap) (e : DapSettingsError) : s.phA = Phase.mutated →
      s.mgr.dap? "alpha" = some d →
      d.save_settings s.world = Except.error e →
      CStep s { s with lockOwner := none, phA := Phase.finished }
  | acquireB (s : SysState) : s.phB = Phase.idle → s.lockOwner = none →
      CStep s { s with lockOwner := some true, phB := Phase.hasLock }
  | mutateB (s : SysState) (d : Dap) : s.phB = Phase.hasLock →
      s.mgr.dap? "beta" = some d →
      CStep s { s with
                mgr := s.mgr.setDap "beta" (d.set_enabled false)
                phB := Phase.mutated }
  | persistB (s : SysState) (d : Dap) (w' : World) : s.phB = Phase.mutated →
      s.mgr.dap? "beta" = some d →
      d.save_settings s.world = Except.ok w' →
      CStep s { s with
                world := w'
                mgr := s.mgr.unload "beta"
                lockOwner := none
                phB := Phase.finished }
  | persistFailB (s : SysState) (d : Dap) (e : DapSettingsError) : s.phB = Phase.mutated →
      s.mgr.dap? "beta" = some d →
      d.save_settings s.world = Except.error e →
      CStep s { s with lockOwner := none, phB := Phase.finished }

/-- Initial state of the concurrency scenario: both clients idle, lock
free. -/
def sInit : SysState :=
  { mgr := mConc, world := wConc, lockOwner := none, phA := Phase.idle, phB := Phase.idle }

/-- Reachability from the initial state. -/
def ConcReach (s : SysState) : Prop := Relation.ReflTransGen CStep sInit s

/-- A client is inside its critical section. -/
def Working (p : Phase) : Prop := p = Phase.hasLock ∨ p = Phase.mutated

/-- Inductive invariant of the concurrent system: lock discipline
(whoever is inside a critical section holds the lock), all writes keep
succeeding, and the registry entry and persisted file of each dap are
determined by the owning client's phase. -/
def SysInv (s : SysState) : Prop :=
  (Working s.phA → s.lockOwner = some false) ∧
  (Working s.phB → s.lockOwner = some true) ∧
  (∀ p, s.world.writeFails p = false) ∧
  s.mgr.dap? "alpha" =
    some (if s.phA = Phase.idle ∨ s.phA = Phase.hasLock then dAlpha
          else dAlpha.set_enabled false) ∧
  s.mgr.dap? "beta" =
    some (if s.phB = Phase.idle ∨ s.phB = Phase.hasLock then dBeta
          else dBeta.set_enabled false) ∧
  s.world.fs "ra/settings.toml" =
    some (.settings (if s.phA = Phase.finished then (dAlpha.set_enabled false).settings
                     else dAlpha.settings)) ∧
  s.world.fs "rb/settings.toml" =
    some (.settings (if s.phB = Phase.finished then (dBeta.set_enabled false).settings
                     else dBeta.settings))

/-- World after client A persisted the disabled settings of `alpha`. -/
def wFinA : World :=
  wConc.setFile "ra/settings.toml" (.settings (dAlpha.set_enabled false).settings)

/-- Registry after client A's disable of `alpha`. -/
def mFinA : DapsManager := (mConc.setDap "alpha" (dAlpha.set_enabled false)).unload "alpha"

/-- Registry after client A's and then client B's disables. -/
def mFinB : DapsManager := (mFinA.setDap "beta" (dBeta.set_enabled false)).unload "beta"

/-- World after both clients persisted their disables. -/
def wFinB : World :=
  wFinA.setFile "rb/settings.toml" (.settings (dBeta.set_enabled false).settings)

/-- The state in which both clients have completed. -/
def sFin : SysState :=
  { mgr := mFinB, world := wFinB, lockOwner := none,
    phA := Phase.finished, phB := Phase.finished }

/-! Helper lemmas about the embedding, shared between the claims. -/

theorem set_settings_self (d : Dap) : d.set_settings d.settings = d := by
  cases d; rfl

theorem setFile_writeFails (w : World) (p : String) (fd : FileData) :
    (w.setFile p fd).writeFails = w.writeFails := rfl

theorem setFile_fs_ne (w : World) (p q : String) (fd : FileData) (h : q ≠ p) :
    (w.setFile p fd).fs q = w.fs q := by
  simp [World.setFile, h]

theorem find?_map_set (l : List (String × Dap)) (n : String) (d : Dap) :
    (l.map (fun p => if p.1 == n then (n, d) else p)).find? (fun p => p.1 == n) =
      (l.find? (fun p => p.1 == n)).map (fun _ => (n, d)) := by
  induction l with
  | nil => rfl
  | cons a t ih =>
    simp only [List.map_cons, List.find?_cons]
    by_cases h : a.1 = n
    · have hb : (a.1 == n) = true := by simp [h]
      simp only [hb, if_true]
      have hh : (((n, d) : String × Dap).1 == n) = true := by simp
      simp [hh]
    · have hb : (a.1 == n) = false := by simp [h]
      simp only [hb, if_false, Bool.false_eq_true, ite_false, ih]

theorem find?_map_set_ne (l : List (String × Dap)) (n n' : String) (d : Dap)
    (hne : n' ≠ n) :
    (l.map (fun p => if p.1 == n then (n, d) else p)).find? (fun p => p.1 == n') =
      l.find? (fun p => p.1 == n') := by
  induction l with
  | nil => rfl
  | cons a t ih =>
    simp only [List.map_cons, List.find?_cons]
    by_cases h : a.1 = n
    · have hb : (a.1 == n) = true := by simp [h]
      have h1 : (((n, d) : String × Dap).1 == n') = false := by simp [Ne.symm hne]
      have h2 : (a.1 == n') = false := by simp [h, Ne.symm hne]
      simp only [hb, if_true, h1, h2, if_false, Bool.false_eq_true, ite_false, ih]
    · have hb : (a.1 == n) = false := by simp [h]
      simp only [hb, if_false, Bool.false_eq_true, ite_false]
      by_cases h' : a.1 = n'
      · have hb' : (a.1 == n') = true := by simp [h']
        simp only [hb', if_true]
      · have hb' : (a.1 == n') = false := by simp [h']
        simp only [hb', if_false, Bool.false_eq_true, ite_false, ih]

theorem dap?_setDap_self (m : DapsManager) (n : String) (d d₀ : Dap)
    (h : m.dap? n = some d₀) : (m.setDap n d).dap? n = some d := by
  unfold DapsManager.dap? at h ⊢
  unfold DapsManager.setDap
  simp only [find?_map_set]
  cases hf : m.daps.find? (fun p => p.1 == n) with
  | none => rw [hf] at h; simp at h
  | some p => simp [hf]

theorem dap?_setDap_ne (m : DapsManager) (n n' : String) (d : Dap) (hne : n' ≠ n) :
    (m.setDap n d).dap? n' = m.dap? n' := by
  unfold DapsManager.dap? DapsManager.setDap
  simp only [find?_map_set_ne _ _ _ _ hne]

theorem setDap_instances (m : DapsManager) (n : String) (d : Dap) :
    (m.setDap n d).instances = m.instances := rfl

theorem setDap_nextInstance (m : DapsManager) (n : String) (d : Dap) :
    (m.setDap n d).nextInstance = m.nextInstance := rfl

theorem unload_daps (m : DapsManager) (n : String) : (m.unload n).daps = m.daps := rfl

theorem unload_nextInstance (m : DapsManager) (n : String) :
    (m.unload n).nextInstance = m.nextInstance := rfl

theorem set_enabled_paths (d : Dap) (e : Bool) :
    (d.set_enabled e).settingsPath = d.settingsPath ∧
    (d.set_enabled e).server_module_file = d.server_module_file ∧
    (d.set_enabled e).enabled = e := ⟨rfl, rfl, rfl⟩

/-! The claims. -/

/-- C6: for every dap the derived locations are pure functions of name
and root directory: the root URI is `/{name}`, the static asset URI is
`/{name}/static`, and the server module file path is the root directory
joined with `{name}_server.wasm`. -/
theorem derived_locations (d : Dap) :
    d.root_uri = "/" ++ d.name ∧
    d.static_uri = "/" ++ d.name ++ "/static" ∧
    d.server_module_file = d.root_dir ++ "/" ++ d.name ++ "_server.wasm" := by
  refine ⟨rfl, ?_, ?_⟩
  · show ("/" ++ d.name) ++ "/" ++ "static" = ("/" ++ d.name) ++ "/static"
    rw [String.append_assoc]
    exact rfl
  · show d.root_dir ++ "/" ++ (d.name ++ "_server.wasm") =
      (d.root_dir ++ "/" ++ d.name) ++ "_server.wasm"
    rw [String.append_assoc (d.root_dir ++ "/") d.name "_server.wasm"]

/-- C10: `Dap::new` is total (it is a plain function returning a `Dap`
and can never fail); the constructed dap keeps the given name and root
directory; the main dap never reads the settings file and always
carries default settings; a non-main dap carries the parsed settings
when the file holds a valid document and the default settings when the
file is missing or malformed (the load error being only logged). -/
theorem dap_new_total (n r : String) (w : World) :
    (Dap.new n r w).name = n ∧ (Dap.new n r w).root_dir = r ∧
    (Dap.new n r w).settings =
      (if n = Dap.main_name then DapSettings.default
       else
         match w.fs (Dap.pathJoin r Dap.settings_file_name) with
         | some (FileData.settings s) => s
         | _ => DapSettings.default) := by
  unfold Dap.new
  by_cases h : n = Dap.main_name
  · simp [Dap.is_main, h]
  · simp only [Dap.is_main, beq_iff_eq, h, if_neg, if_false, ite_false]
    simp only [Dap.reload_settings, DapSettings.load, Dap.settingsPath, Dap.pathJoin]
    cases hf : w.fs (r ++ "/" ++ Dap.settings_file_name) with
    | none => simp [Except.map, Dap.set_settings, h]
    | some fd => cases fd <;> simp [Except.map, Dap.set_settings, h]

/-- C8: the inclusion `required ⊆ allowed` is not enforced: the
settings value `viol` requires `http` without allowing it, yet
`set_settings` installs it unchanged on any dap, `Dap::new` accepts a
settings file holding it verbatim, and `Dap::update` never alters the
permission sets of any dap (no operation rejects or repairs the
violation). -/
theorem permission_inclusion_not_enforced :
    (Permission.http ∈ viol.permissions.required ∧
      Permission.http ∉ viol.permissions.allowed ∧
      viol.permissions.allowed.contains Permission.http = false) ∧
    (∀ d : Dap, (d.set_settings viol).settings = viol) ∧
    (Dap.new "v" "rv" wviol).settings = viol ∧
    (∀ (d : Dap) (w : World) (q : DapUpdateQuery),
      (d.update w q).1.settings.permissions = d.settings.permissions) := by
  refine ⟨by decide, fun d => rfl, by decide, fun d w q => ?_⟩
  unfold Dap.update
  cases q.enabled with
  | none => rfl
  | some e =>
    by_cases h : d.enabled = e
    · simp [h]
    · simp only [if_pos (Ne.intro fun hh => h hh)]
      cases hs : (d.set_enabled e).save_settings w with
      | ok w' => simp [hs, Dap.set_enabled]
      | error err => simp [hs, Dap.set_enabled]

/-- C8 witness: installing the violating settings on a concrete dap
really stores them unchanged. -/
theorem permission_inclusion_not_enforced_w :
    (d0.set_settings viol).settings = viol :=
  permission_inclusion_not_enforced.2.1 d0

/-- C1 counterexample: the claim that a failed persistence rolls the
in-memory `enabled` flag back is false on the code.  With every write
failing, `Dap::update` on the disabled dap `d0` with query
`enabled = some true` propagates the `IoError` but leaves the in-memory
flag at the NEW value `true`, different from the prior state. -/
theorem update_no_rollback_cex :
    (d0.update wfail { enabled := some true }).2.2 =
      Except.error DapSettingsError.ioError ∧
    (d0.update wfail { enabled := some true }).1.enabled = true ∧
    d0.enabled = false := ⟨rfl, rfl, rfl⟩

/-- C1 amended: when persisting fails during an `enabled` toggle,
`Dap::update` propagates the error and leaves the on-disk state (the
world) unchanged, but the in-memory flag KEEPS the new value — the
mutated dap, not the prior one, is what remains in memory. -/
theorem update_failed_persist_keeps_new_flag (d : Dap) (w : World) (e : Bool)
    (h1 : d.enabled ≠ e) (h2 : w.writeFails d.settingsPath = true) :
    d.update w { enabled := some e } =
      (d.set_enabled e, w, Except.error DapSettingsError.ioError) := by
  unfold Dap.update
  simp only [if_pos h1]
  have hs : (d.set_enabled e).save_settings w = Except.error DapSettingsError.ioError := by
    unfold Dap.save_settings DapSettings.save
    rw [(set_enabled_paths d e).1, h2]
    simp
  rw [hs]

/-- C1 amended, witness at a concrete input. -/
theorem update_failed_persist_keeps_new_flag_w :
    d0.update wfail { enabled := some true } =
      (d0.set_enabled true, wfail, Except.error DapSettingsError.ioError) :=
  update_failed_persist_keeps_new_flag d0 wfail true (by decide) rfl

/-- C3: `Dap::update` is a no-op reporting `false` ("not changed") when
the query carries no `enabled` field, and after any call with
`enabled = some e` that returned `Ok`, an immediate second call with the
same query reports `false` and performs no write: dap and world are
returned exactly as they were after the first call. -/
theorem update_idempotent :
    (∀ (d : Dap) (w : World), d.update w { enabled := none } = (d, w, Except.ok false)) ∧
    (∀ (d : Dap) (w : World) (e : Bool) (d₁ : Dap) (w₁ : World) (b : Bool),
      d.update w { enabled := some e } = (d₁, w₁, Except.ok b) →
      d₁.update w₁ { enabled := some e } = (d₁, w₁, Except.ok false)) := by
  constructor
  · intro d w; rfl
  · intro d w e d₁ w₁ b h
    have hred : d.update w { enabled := some e } =
        (if d.enabled ≠ e then
          match (d.set_enabled e).save_settings w with
          | .ok w' => (d.set_enabled e, w', .ok true)
          | .error err => (d.set_enabled e, w, .error err)
        else (d, w, .ok false)) := rfl
    rw [hred] at h
    by_cases hd : d.enabled = e
    · rw [if_neg (by simp [hd])] at h
      simp only [Prod.mk.injEq] at h
      obtain ⟨rfl, rfl, -⟩ := h
      have : d.update w { enabled := some e } = (d, w, Except.ok false) := by
        rw [hred, if_neg (by simp [hd])]
      exact this
    · rw [if_pos hd] at h
      cases hs : (d.set_enabled e).save_settings w with
      | ok w' =>
        rw [hs] at h
        simp only [Prod.mk.injEq] at h
        obtain ⟨rfl, rfl, -⟩ := h
        have hred₂ : (d.set_enabled e).update w' { enabled := some e } =
            (if (d.set_enabled e).enabled ≠ e then
              match ((d.set_enabled e).set_enabled e).save_settings w' with
              | .ok w'' => ((d.set_enabled e).set_enabled e, w'', .ok true)
              | .error err => ((d.set_enabled e).set_enabled e, w', .error err)
            else (d.set_enabled e, w', .ok false)) := rfl
        rw [hred₂, if_neg (by simp [Dap.set_enabled, Dap.enabled])]
      | error err =>
        rw [hs] at h
        simp only [Prod.mk.injEq] at h
        exact absurd h.2.2 (by simp)

/-- C3 witness: a second `enabled = some true` update on a dap that is
already enabled reports no change and leaves dap and world untouched. -/
theorem update_idempotent_w :
    dEn.update wok { enabled := some true } = (dEn, wok, Except.ok false) :=
  update_idempotent.2 dEn wok true dEn wok false rfl

/-- C7: saving a dap's settings and then loading them back from the same
path yields the saved document field-for-field, so
`Dap::save_settings` followed by `Dap::reload_settings` restores the
dap exactly. -/
theorem save_then_load_roundtrip (d : Dap) (w w₁ : World)
    (h : d.save_settings w = Except.ok w₁) :
    DapSettings.load w₁ d.settingsPath = Except.ok d.settings ∧
    d.reload_settings w₁ = Except.ok d := by
  unfold Dap.save_settings DapSettings.save at h
  by_cases hw : w.writeFails d.settingsPath = true
  · rw [if_pos hw] at h
    exact absurd h (by simp)
  · rw [if_neg hw] at h
    simp only [Except.ok.injEq] at h
    subst h
    have hload : DapSettings.load (w.setFile d.settingsPath (.settings d.settings))
        d.settingsPath = Except.ok d.settings := by
      unfold DapSettings.load World.setFile
      simp
    refine ⟨hload, ?_⟩
    unfold Dap.reload_settings
    rw [hload]
    simp [Except.map, set_settings_self]

/-- C7 witness at a concrete dap and world. -/
theorem save_then_load_roundtrip_w :
    DapSettings.load (wok.setFile d0.settingsPath (.settings d0.settings))
      d0.settingsPath = Except.ok d0.settings :=
  (save_then_load_roundtrip d0 wok (wok.setFile d0.settingsPath (.settings d0.settings)) rfl).1

/-- C2 counterexample: discovering `good` (valid settings) and `bad`
(corrupt settings) does NOT yield a registry with exactly the valid
dap: the corrupt-settings dap `bad` is present as well, because
`Dap::new` is total and swallows the load error, keeping default
settings. -/
theorem discovery_skip_cex :
    scanned.dap? "bad" =
      some { name := "bad", root_dir := "daps/bad", settings := DapSettings.default } := by
  decide

/-- C2 amended: discovery is never fatal and daps with valid settings
are registered with their parsed settings, but a dap whose settings
file is corrupt is NOT skipped: it is registered too, carrying default
settings (the load failure is only logged inside `Dap::new`). -/
theorem discovery_registers_corrupt_with_defaults :
    scanned.dap? "good" =
      some { name := "good", root_dir := "daps/good", settings := goodSettings } ∧
    scanned.daps.map Prod.fst = ["good", "bad"] ∧
    (scanned.dap? "bad").map Dap.settings = some DapSettings.default := by
  refine ⟨by decide, by decide, by decide⟩

/-- C5: the main dap is exempt from the public surface: `get_daps`
returns exactly the non-main daps of the registry, sorted by name, and
`http_configure` registers a catch-all scope — always under the dap's
root URI — exactly for non-main daps. -/
theorem public_surface_excludes_main (m : DapsManager) (d : Dap) :
    (∀ x : Dap, x ∈ get_daps m ↔ x ∈ m.daps.map Prod.snd ∧ x.is_main = false) ∧
    List.Sorted (fun a b : Dap => a.name ≤ b.name) (get_daps m) ∧
    (Route.catchAllScope d.root_uri ∈ d.http_configure ↔ d.is_main = false) ∧
    (∀ u, Route.catchAllScope u ∈ d.http_configure → u = d.root_uri) := by
  refine ⟨?_, ?_, ?_, ?_⟩
  · intro x
    unfold get_daps
    rw [List.mem_mergeSort, List.mem_filter]
    simp [Bool.not_eq_true']
  · unfold get_daps
    have hs := @List.sorted_mergeSort Dap
      (fun a b : Dap => decide (a.name ≤ b.name))
      (fun a b c hab hbc => by
        simp only [decide_eq_true_eq] at hab hbc ⊢
        exact le_trans hab hbc)
      (fun a b => by
        simp only [Bool.or_eq_true, decide_eq_true_eq]
        exact le_total a.name b.name)
      ((m.daps.map Prod.snd).filter (fun x => !x.is_main))
    exact List.Pairwise.imp (fun h => of_decide_eq_true h) hs
  · unfold Dap.http_configure
    by_cases hm : d.is_main
    · simp [hm]
    · simp [hm]
  · intro u hu
    by_cases hm : d.is_main
    · simp [Dap.http_configure, hm] at hu
    · simp [Dap.http_configure, hm] at hu
      exact hu

/-- C5 witness: a concrete non-main dap does get a catch-all scope. -/
theorem public_surface_excludes_main_w :
    Route.catchAllScope d0.root_uri ∈ d0.http_configure :=
  ((public_surface_excludes_main m0 d0).2.2.1).mpr (by decide)

theorem dap?_unload (m : DapsManager) (n n' : String) :
    (m.unload n).dap? n' = m.dap? n' := rfl

theorem update_reduce (d : Dap) (w : World) (e : Bool) :
    d.update w { enabled := some e } =
      (if d.enabled ≠ e then
        match (d.set_enabled e).save_settings w with
        | .ok w' => (d.set_enabled e, w', .ok true)
        | .error err => (d.set_enabled e, w, .error err)
      else (d, w, .ok false)) := rfl

/-- C4: the administrative `update_dap` path performs the lifecycle
transition exactly when the enabled state actually changed: a
transition to disabled reports the change and drops every held
instance of the dap; the immediately following transition back to
enabled reports the change and installs a FRESH instance (its identity
differs from any identity drawn before); and when settings persistence
fails, the error propagates and no lifecycle transition occurs (held
instances are exactly those held before). -/
theorem update_lifecycle (m : DapsManager) (w : World) (n : String) (d : Dap) (i : Nat)
    (m₁ : DapsManager) (w₁ : World) (r₁ : Except ServerError Bool)
    (m₂ : DapsManager) (w₂ : World) (r₂ : Except ServerError Bool)
    (hd : m.dap? n = some d)
    (hen : d.enabled = true)
    (hlt : i < m.nextInstance)
    (hw : w.writeFails d.settingsPath = false)
    (hmod : w.fs d.server_module_file = some (FileData.wasm true))
    (hpath : d.settingsPath ≠ d.server_module_file)
    (h1 : update_dap m w { dap_name := n, enabled := some false } = (m₁, w₁, r₁))
    (h2 : update_dap m₁ w₁ { dap_name := n, enabled := some true } = (m₂, w₂, r₂)) :
    (r₁ = Except.ok true ∧ ∀ j, (n, j) ∉ m₁.instances) ∧
    (r₂ = Except.ok true ∧ ∃ j, (n, j) ∈ m₂.instances ∧ j ≠ i) ∧
    (∀ w' : World, w'.writeFails d.settingsPath = true →
      (update_dap m w' { dap_name := n, enabled := some false }).1.instances = m.instances ∧
      (update_dap m w' { dap_name := n, enabled := some false }).2.2 =
        Except.error (ServerError.settingsError DapSettingsError.ioError)) := by
  have hsp : (d.set_enabled false).settingsPath = d.settingsPath := rfl
  -- First call: disable.
  have hsave₁ : (d.set_enabled false).save_settings w =
      Except.ok (w.setFile d.settingsPath (.settings (d.set_enabled false).settings)) := by
    unfold Dap.save_settings DapSettings.save
    rw [hsp, hw]
    simp
  have e₁ : d.update w { enabled := some false } =
      (d.set_enabled false, w.setFile d.settingsPath (.settings (d.set_enabled false).settings),
        Except.ok true) := by
    rw [update_reduce, if_pos (by simp [hen]), hsave₁]
  have hu₁ : update_dap m w { dap_name := n, enabled := some false } =
      ((m.setDap n (d.set_enabled false)).unload n,
        w.setFile d.settingsPath (.settings (d.set_enabled false).settings), Except.ok true) := by
    unfold update_dap
    rw [hd]
    simp only [e₁]
    rfl
  rw [hu₁] at h1
  simp only [Prod.mk.injEq] at h1
  obtain ⟨hm₁, hw₁, hr₁⟩ := h1
  subst hm₁; subst hw₁; subst hr₁
  refine ⟨⟨rfl, ?_⟩, ?_, ?_⟩
  · intro j hj
    simp only [DapsManager.unload, setDap_instances, List.mem_filter] at hj
    simp at hj
  -- Second call: re-enable.
  · have hd₁ : ((m.setDap n (d.set_enabled false)).unload n).dap? n =
        some (d.set_enabled false) := by
      rw [dap?_unload]
      exact dap?_setDap_self m n (d.set_enabled false) d hd
    have hwf : (w.setFile d.settingsPath
        (.settings (d.set_enabled false).settings)).writeFails d.settingsPath = false := hw
    have hsave₂ : ((d.set_enabled false).set_enabled true).save_settings
        (w.setFile d.settingsPath (.settings (d.set_enabled false).settings)) =
        Except.ok ((w.setFile d.settingsPath (.settings (d.set_enabled false).settings)).setFile
          d.settingsPath (.settings ((d.set_enabled false).set_enabled true).settings)) := by
      unfold Dap.save_settings DapSettings.save
      rw [show ((d.set_enabled false).set_enabled true).settingsPath = d.settingsPath from rfl, hwf]
      simp
    have e₂ : (d.set_enabled false).update
        (w.setFile d.settingsPath (.settings (d.set_enabled false).settings))
        { enabled := some true } =
        ((d.set_enabled false).set_enabled true,
          (w.setFile d.settingsPath (.settings (d.set_enabled false).settings)).setFile
            d.settingsPath (.settings ((d.set_enabled false).set_enabled true).settings),
          Except.ok true) := by
      rw [update_reduce, if_pos (by simp [Dap.set_enabled, Dap.enabled]), hsave₂]
    have hd₂ : (((m.setDap n (d.set_enabled false)).unload n).setDap n
        ((d.set_enabled false).set_enabled true)).dap? n =
        some ((d.set_enabled false).set_enabled true) :=
      dap?_setDap_self _ n _ _ hd₁
    have hfs : ((w.setFile d.settingsPath (.settings (d.set_enabled false).settings)).setFile
        d.settingsPath
        (.settings ((d.set_enabled false).set_enabled true).settings)).fs
        d.server_module_file = some (FileData.wasm true) := by
      rw [setFile_fs_ne _ _ _ _ (Ne.symm hpath), setFile_fs_ne _ _ _ _ (Ne.symm hpath), hmod]
    have hload : DapsManager.load
        (((m.setDap n (d.set_enabled false)).unload n).setDap n
          ((d.set_enabled false).set_enabled true))
        ((w.setFile d.settingsPath (.settings (d.set_enabled false).settings)).setFile
          d.settingsPath (.settings ((d.set_enabled false).set_enabled true).settings)) n =
        Except.ok
          { daps := (((m.setDap n (d.set_enabled false)).unload n).setDap n
              ((d.set_enabled false).set_enabled true)).daps,
            instances := (n, m.nextInstance) ::
              (((m.setDap n (d.set_enabled false)).unload n).setDap n
                ((d.set_enabled false).set_enabled true)).instances.filter
                (fun p => !(p.1 == n)),
            nextInstance := m.nextInstance + 1 } := by
      unfold DapsManager.load
      simp only [hd₂]
      rw [show ((d.set_enabled false).set_enabled true).server_module_file =
        d.server_module_file from rfl, hfs]
      rfl
    have hu₂ : update_dap ((m.setDap n (d.set_enabled false)).unload n)
        (w.setFile d.settingsPath (.settings (d.set_enabled false).settings))
        { dap_name := n, enabled := some true } =
        ({ daps := (((m.setDap n (d.set_enabled false)).unload n).setDap n
              ((d.set_enabled false).set_enabled true)).daps,
           instances := (n, m.nextInstance) ::
              (((m.setDap n (d.set_enabled false)).unload n).setDap n
                ((d.set_enabled false).set_enabled true)).instances.filter
                (fun p => !(p.1 == n)),
           nextInstance := m.nextInstance + 1 },
         (w.setFile d.settingsPath (.settings (d.set_enabled false).settings)).setFile
            d.settingsPath (.settings ((d.set_enabled false).set_enabled true).settings),
         Except.ok true) := by
      unfold update_dap
      rw [hd₁]
      simp only [e₂]
      simp only [hload]
      rfl
    rw [hu₂] at h2
    simp only [Prod.mk.injEq] at h2
    obtain ⟨hm₂, -, hr₂⟩ := h2
    refine ⟨hr₂.symm, m.nextInstance, ?_, ne_of_gt hlt⟩
    rw [← hm₂]
    exact List.mem_cons_self _ _
  · intro w' hw'
    have hsavef : (d.set_enabled false).save_settings w' =
        Except.error DapSettingsError.ioError := by
      unfold Dap.save_settings DapSettings.save
      rw [hsp, hw']
      simp
    have e₃ : d.update w' { enabled := some false } =
        (d.set_enabled false, w', Except.error DapSettingsError.ioError) := by
      rw [update_reduce, if_pos (by simp [hen]), hsavef]
    have hu₃ : update_dap m w' { dap_name := n, enabled := some false } =
        (m.setDap n (d.set_enabled false), w',
          Except.error (ServerError.settingsError DapSettingsError.ioError)) := by
      unfold update_dap
      rw [hd]
      simp only [e₃]
    rw [hu₃]
    exact ⟨rfl, rfl⟩

/-- C4 witness: in the concrete lifecycle scenario, disabling the
enabled dap reports a change, and the immediate re-enable reports a
change as well. -/
theorem update_lifecycle_w :
    (update_dap mLife wLife { dap_name := "foo", enabled := some false }).2.2 =
      Except.ok true ∧
    (update_dap (update_dap mLife wLife { dap_name := "foo", enabled := some false }).1
      (update_dap mLife wLife { dap_name := "foo", enabled := some false }).2.1
      { dap_name := "foo", enabled := some true }).2.2 = Except.ok true := by
  have h := update_lifecycle mLife wLife "foo" dEn 0
    (update_dap mLife wLife { dap_name := "foo", enabled := some false }).1
    (update_dap mLife wLife { dap_name := "foo", enabled := some false }).2.1
    (update_dap mLife wLife { dap_name := "foo", enabled := some false }).2.2
    (update_dap (update_dap mLife wLife { dap_name := "foo", enabled := some false }).1
      (update_dap mLife wLife { dap_name := "foo", enabled := some false }).2.1
      { dap_name := "foo", enabled := some true }).1
    (update_dap (update_dap mLife wLife { dap_name := "foo", enabled := some false }).1
      (update_dap mLife wLife { dap_name := "foo", enabled := some false }).2.1
      { dap_name := "foo", enabled := some true }).2.1
    (update_dap (update_dap mLife wLife { dap_name := "foo", enabled := some false }).1
      (update_dap mLife wLife { dap_name := "foo", enabled := some false }).2.1
      { dap_name := "foo", enabled := some true }).2.2
    (by decide) rfl (by decide) rfl rfl (by decide) rfl rfl
  exact ⟨h.1.1, h.2.1.1⟩

theorem inv_init : SysInv sInit := by
  refine ⟨?_, ?_, fun p => rfl, by decide, by decide, by decide, by decide⟩
  · rintro (h | h) <;> exact absurd h (by decide)
  · rintro (h | h) <;> exact absurd h (by decide)

theorem inv_preserved (s s' : SysState) (hinv : SysInv s) (hstep : CStep s s') :
    SysInv s' := by
  obtain ⟨i1, i2, i3, i4, i5, i6, i7⟩ := hinv
  cases hstep with
  | acquireA hA hO =>
    refine ⟨fun _ => rfl, ?_, i3, ?_, i5, ?_, i7⟩
    · intro h
      have h2 := i2 h
      rw [hO] at h2
      exact absurd h2 (by simp)
    · rw [hA] at i4
      simpa using i4
    · rw [hA] at i6
      simpa using i6
  | mutateA d hA hd =>
    have i4' : s.mgr.dap? "alpha" = some dAlpha := by
      rw [hA] at i4
      simpa using i4
    have hda : d = dAlpha := by
      rw [i4'] at hd
      simpa using hd.symm
    subst hda
    refine ⟨fun _ => i1 (Or.inl hA), i2, i3, ?_, ?_, ?_, i7⟩
    · have h := dap?_setDap_self s.mgr "alpha" (dAlpha.set_enabled false) dAlpha i4'
      simpa using h
    · rw [dap?_setDap_ne s.mgr "alpha" "beta" _ (by decide)]
      exact i5
    · rw [hA] at i6
      simpa using i6
  | persistA d w' hA hd hsave =>
    have i4' : s.mgr.dap? "alpha" = some (dAlpha.set_enabled false) := by
      rw [hA] at i4
      simpa using i4
    have hda : d = dAlpha.set_enabled false := by
      rw [i4'] at hd
      simpa using hd.symm
    subst hda
    have hsv : (dAlpha.set_enabled false).save_settings s.world =
        Except.ok (s.world.setFile "ra/settings.toml"
          (.settings (dAlpha.set_enabled false).settings)) := by
      unfold Dap.save_settings DapSettings.save
      rw [show (dAlpha.set_enabled false).settingsPath = "ra/settings.toml" from rfl]
      rw [i3 "ra/settings.toml"]
      simp
    rw [hsv] at hsave
    have hw' : w' = s.world.setFile "ra/settings.toml"
        (.settings (dAlpha.set_enabled false).settings) := by
      simpa using hsave.symm
    subst hw'
    refine ⟨?_, ?_, fun p => i3 p, ?_, i5, ?_, ?_⟩
    · rintro (h | h) <;> exact Phase.noConfusion h
    · intro h
      have h1 := i1 (Or.inr hA)
      have h2 := i2 h
      rw [h1] at h2
      exact absurd h2 (by simp)
    · simpa using i4'
    · simp [World.setFile]
    · rw [setFile_fs_ne _ _ _ _ (by decide)]
      exact i7
  | persistFailA d e hA hd hsave =>
    have i4' : s.mgr.dap? "alpha" = some (dAlpha.set_enabled false) := by
      rw [hA] at i4
      simpa using i4
    have hda : d = dAlpha.set_enabled false := by
      rw [i4'] at hd
      simpa using hd.symm
    subst hda
    have hsv : (dAlpha.set_enabled false).save_settings s.world =
        Except.ok (s.world.setFile "ra/settings.toml"
          (.settings (dAlpha.set_enabled false).settings)) := by
      unfold Dap.save_settings DapSettings.save
      rw [show (dAlpha.set_enabled false).settingsPath = "ra/settings.toml" from rfl]
      rw [i3 "ra/settings.toml"]
      simp
    rw [hsv] at hsave
    exact absurd hsave (by simp)
  | acquireB hB hO =>
    refine ⟨?_, fun _ => rfl, i3, i4, ?_, i6, ?_⟩
    · intro h
      have h1 := i1 h
      rw [hO] at h1
      exact absurd h1 (by simp)
    · rw [hB] at i5
      simpa using i5
    · rw [hB] at i7
      simpa using i7
  | mutateB d hB hd =>
    have i5' : s.mgr.dap? "beta" = some dBeta := by
      rw [hB] at i5
      simpa using i5
    have hdb : d = dBeta := by
      rw [i5'] at hd
      simpa using hd.symm
    subst hdb
    refine ⟨i1, fun _ => i2 (Or.inl hB), i3, ?_, ?_, i6, ?_⟩
    · rw [dap?_setDap_ne s.mgr "beta" "alpha" _ (by decide)]
      exact i4
    · have h := dap?_setDap_self s.mgr "beta" (dBeta.set_enabled false) dBeta i5'
      simpa using h
    · rw [hB] at i7
      simpa using i7
  | persistB d w' hB hd hsave =>
    have i5' : s.mgr.dap? "beta" = some (dBeta.set_enabled false) := by
      rw [hB] at i5
      simpa using i5
    have hdb : d = dBeta.set_enabled false := by
      rw [i5'] at hd
      simpa using hd.symm
    subst hdb
    have hsv : (dBeta.set_enabled false).save_settings s.world =
        Except.ok (s.world.setFile "rb/settings.toml"
          (.settings (dBeta.set_enabled false).settings)) := by
      unfold Dap.save_settings DapSettings.save
      rw [show (dBeta.set_enabled false).settingsPath = "rb/settings.toml" from rfl]
      rw [i3 "rb/settings.toml"]
      simp
    rw [hsv] at hsave
    have hw' : w' = s.world.setFile "rb/settings.toml"
        (.settings (dBeta.set_enabled false).settings) := by
      simpa using hsave.symm
    subst hw'
    refine ⟨?_, ?_, fun p => i3 p, ?_, ?_, ?_, ?_⟩
    · intro h
      have h2 := i2 (Or.inr hB)
      have h1 := i1 h
      rw [h1] at h2
      exact absurd h2 (by simp)
    · rintro (h | h) <;> exact Phase.noConfusion h
    · exact i4
    · simpa using i5'
    · rw [setFile_fs_ne _ _ _ _ (by decide)]
      exact i6
    · simp [World.setFile]
  | persistFailB d e hB hd hsave =>
    have i5' : s.mgr.dap? "beta" = some (dBeta.set_enabled false) := by
      rw [hB] at i5
      simpa using i5
    have hdb : d = dBeta.set_enabled false := by
      rw [i5'] at hd
      simpa using hd.symm
    subst hdb
    have hsv : (dBeta.set_enabled false).save_settings s.world =
        Except.ok (s.world.setFile "rb/settings.toml"
          (.settings (dBeta.set_enabled false).settings)) := by
      unfold Dap.save_settings DapSettings.save
      rw [show (dBeta.set_enabled false).settingsPath = "rb/settings.toml" from rfl]
      rw [i3 "rb/settings.toml"]
      simp
    rw [hsv] at hsave
    exact absurd hsave (by simp)

theorem inv_reach (s : SysState) (h : ConcReach s) : SysInv s := by
  unfold ConcReach at h
  induction h with
  | refl => exact inv_init
  | tail _ hstep ih => exact inv_preserved _ _ ih hstep

/-- C9: under the modelled lock discipline of `DapsService`, the two
clients' critical sections are mutually exclusive — no reachable state
has both clients inside `handle_http`'s locked region, so no two
`update` calls interleave partially — and no update is lost: in every
reachable state where both clients have finished, the registry holds
both daps disabled and both settings files hold the persisted disabled
documents. -/
theorem concurrent_updates_no_lost_update :
    (∀ s : SysState, ConcReach s → ¬(Working s.phA ∧ Working s.phB)) ∧
    (∀ s : SysState, ConcReach s → s.phA = Phase.finished → s.phB = Phase.finished →
      (s.mgr.dap? "alpha").map Dap.enabled = some false ∧
      (s.mgr.dap? "beta").map Dap.enabled = some false ∧
      s.world.fs "ra/settings.toml" =
        some (.settings (dAlpha.set_enabled false).settings) ∧
      s.world.fs "rb/settings.toml" =
        some (.settings (dBeta.set_enabled false).settings)) := by
  constructor
  · rintro s hs ⟨ha, hb⟩
    obtain ⟨i1, i2, -⟩ := inv_reach s hs
    have h1 := i1 ha
    have h2 := i2 hb
    rw [h1] at h2
    exact absurd h2 (by simp)
  · intro s hs hA hB
    obtain ⟨-, -, -, i4, i5, i6, i7⟩ := inv_reach s hs
    rw [hA] at i4 i6
    rw [hB] at i5 i7
    simp only [show ¬(Phase.finished = Phase.idle ∨ Phase.finished = Phase.hasLock) by decide,
      if_false, ite_false, if_pos rfl] at i4 i5 i6 i7
    refine ⟨?_, ?_, i6, i7⟩
    · rw [i4]; rfl
    · rw [i5]; rfl

/-- C9 witness: the interleaving in which client A completes and then
client B completes reaches `sFin`, and there both updates have taken
effect. -/
theorem concurrent_updates_no_lost_update_w :
    (sFin.mgr.dap? "alpha").map Dap.enabled = some false ∧
    (sFin.mgr.dap? "beta").map Dap.enabled = some false := by
  have t0 : ConcReach sInit := Relation.ReflTransGen.refl
  have t1 := Relation.ReflTransGen.tail t0 (CStep.acquireA sInit rfl rfl)
  have t2 := Relation.ReflTransGen.tail t1 (CStep.mutateA _ dAlpha rfl (by decide))
  have t3 := Relation.ReflTransGen.tail t2
    (CStep.persistA _ (dAlpha.set_enabled false) _ rfl (by decide) rfl)
  have t4 := Relation.ReflTransGen.tail t3 (CStep.acquireB _ rfl rfl)
  have t5 := Relation.ReflTransGen.tail t4 (CStep.mutateB _ dBeta rfl (by decide))
  have t6 := Relation.ReflTransGen.tail t5
    (CStep.persistB _ (dBeta.set_enabled false) _ rfl (by decide) rfl)
  have hreach : ConcReach sFin := t6
  exact ⟨(concurrent_updates_no_lost_update.2 sFin hreach rfl rfl).1,
    (concurrent_updates_no_lost_update.2 sFin hreach rfl rfl).2.1⟩

end Dapla
